import Mathlib

/-!
# Verification of the sparkgrep line-classification and pattern-matching engine

The repository ships a pre-commit hook that scans plain scripts and notebook
documents for configured regular-expression patterns, skipping comment lines,
blank lines, docstring content, magic-command lines and non-code notebook
cells.  The engine itself (the `sparkgrep.utils`, `sparkgrep.file_processors`
and `sparkgrep.patterns` modules) is embedded below; where only the design
document and the test-suite of the engine are available, definitions are
modelled from the specification and say so in their doc comment.

Lines of text are embedded as `List Char`; the host regular-expression
engine (Python's `re` module, an external collaborator of the design) is
embedded as an explicit search-function parameter.
-/

/-- A physical line of a source file, as a list of characters
(the line terminator is not part of the line). -/
abbrev Line : Type := List Char

/-- A pattern-table entry: (regular-expression source text, human-readable label). -/
abbrev Pattern : Type := String × String

/-- The characters Python's `str.strip` removes: ASCII whitespace. -/
def isPyWs (c : Char) : Bool :=
  c = ' ' || c = '\t' || c = '\n' || c = '\r' || c = '\x0b' || c = '\x0c'

/-- Leading-whitespace stripping, as in Python's `line.strip()` restricted to
what the classifier inspects (emptiness and the first non-blank character). -/
def lstrip : Line → Line
  | [] => []
  | c :: rest => if isPyWs c then lstrip rest else c :: rest

/-- Auxiliary counter for non-overlapping substring occurrences: the `Nat`
argument is the number of characters still to be jumped over after a match
was consumed (Python's `str.count` semantics). -/
def countOccAux (pat : List Char) : List Char → Nat → Nat
  | [], _ => 0
  | _ :: rest, k + 1 => countOccAux pat rest k
  | c :: rest, 0 =>
    if pat.isPrefixOf (c :: rest) then
      countOccAux pat rest (pat.length - 1) + 1
    else
      countOccAux pat rest 0

/-- Number of non-overlapping occurrences of `pat` in `s`,
as in Python's `s.count(pat)` for nonempty `pat`. -/
def countOcc (pat : List Char) (s : List Char) : Nat :=
  countOccAux pat s 0

/-- Substring containment, as in Python's `pat in s`. -/
def containsSub (pat : List Char) : List Char → Bool
  | [] => pat.isEmpty
  | c :: rest => pat.isPrefixOf (c :: rest) || containsSub pat rest

/-- The `"""` triple-quote delimiter. -/
def dq3 : Line := ['"', '"', '"']

/-- The `'''` triple-quote delimiter. -/
def sq3 : Line := ['\'', '\'', '\'']

/-- Modelled from the spec: `sparkgrep.utils.detect_docstring_start` is not
under `src/` (only its tests are); §4.2 of the design document specifies it.
Given one line, decide whether it begins an unterminated triple-quoted
string: if the line, once leading whitespace is stripped, starts with one of
the two triple-quote delimiters and that delimiter occurs only once in the
line, the opened delimiter is returned; otherwise (no delimiter, delimiter
not at the start, or a matching closer later in the line) `none`. -/
def detect_docstring_start (line : Line) : Option Line :=
  if dq3.isPrefixOf (lstrip line) && (countOcc dq3 line == 1) then
    some dq3
  else if sq3.isPrefixOf (lstrip line) && (countOcc sq3 line == 1) then
    some sq3
  else
    none

/-- Modelled from the spec: `sparkgrep.utils.is_docstring_line` is not under
`src/`; §4.2 of the design document specifies it.  Thread the docstring state
(inside?, active delimiter) across one line: when inside with delimiter `q`,
a line containing `q` closes the docstring regardless of what precedes the
closing occurrence, and nothing else (in particular not the other delimiter)
closes it; when outside, the opener-detector decides.  The design leaves the
ill-formed input (inside with no delimiter) unspecified; it is kept inert
here (no delimiter can be found, so the state persists). -/
def is_docstring_line (line : Line) (in_docstring : Bool) (quote_type : Option Line) :
    Bool × Option Line :=
  if in_docstring then
    match quote_type with
    | some q => if containsSub q line then (false, none) else (true, some q)
    | none => (true, none)
  else
    match detect_docstring_start line with
    | some q => (true, some q)
    | none => (false, none)

/-- Modelled from the spec: `sparkgrep.utils.should_skip_line` is not under
`src/`; §4.2 of the design document specifies the plain-script skip
predicate: skip when inside a docstring (state already updated for this
line), when the stripped line is empty, or when it starts with `#`. -/
def should_skip_line (line : Line) (in_docstring : Bool) : Bool :=
  in_docstring || (lstrip line).isEmpty || ((lstrip line).head? == some '#')

/-- Modelled from the spec: `sparkgrep.utils.should_skip_notebook_line` is
not under `src/`; §4.3 of the design document specifies the notebook skip
predicate: skip comment lines (`#`) and magic-command lines (`%`, covering
`%%`); blank lines are not skipped. -/
def should_skip_notebook_line (line : Line) : Bool :=
  ((lstrip line).head? == some '#') || ((lstrip line).head? == some '%')

/-- Modelled from the spec: `sparkgrep.utils.check_line_for_patterns` is not
under `src/`; §4.4 of the design document specifies it.  The host language's
regular-expression engine is an external collaborator, so it enters as the
parameter `search`, standing for the truth value of
`re.search(pattern, line, re.IGNORECASE)`: case-insensitive matching
anywhere in the line.  For one already-accepted line, the loop appends one
`(label, original-line-text)` pair per pattern whose search fires, in
pattern-table order. -/
def check_line_for_patterns (search : String → Line → Bool) (line : Line)
    (patterns : List Pattern) : List (String × Line) :=
  patterns.foldl
    (fun acc p => if search p.1 line then acc ++ [(p.2, line)] else acc)
    []

/-- A plain-script finding: (1-based line number, label, raw line text). -/
abbrev PyFinding : Type := Nat × String × Line

/-- Modelled from the spec: the line-iteration loop of
`sparkgrep.file_processors.check_python_file` (not under `src/`; §4.5 of the
design document).  Lines are walked with a 1-based counter `n`, threading the
docstring state; for each line the state is updated first, then the skip
predicate is applied, and non-skipped lines contribute one finding per
pattern match. -/
def process_python_lines (search : String → Line → Bool) (ps : List Pattern) :
    List Line → Nat → Bool → Option Line → List PyFinding
  | [], _, _, _ => []
  | l :: rest, n, inD, q =>
    (if should_skip_line l (is_docstring_line l inD q).1 then []
     else (check_line_for_patterns search l ps).map (fun r => (n, r.1, r.2)))
    ++ process_python_lines search ps rest (n + 1)
        (is_docstring_line l inD q).1 (is_docstring_line l inD q).2

/-- Modelled from the spec: `sparkgrep.file_processors.check_python_file`
(not under `src/`; §4.5).  File reading is external I/O, so the analyzer
receives the read result: `none` models an unreadable or missing file and
degrades to an empty finding list (the accompanying diagnostic print is
outside the embedding); otherwise the lines are scanned from line 1 with the
docstring state initialized to (outside, no delimiter). -/
def check_python_file (search : String → Line → Bool)
    (content : Option (List Line)) (ps : List Pattern) : List PyFinding :=
  match content with
  | none => []
  | some lines => process_python_lines search ps lines 1 false none

/-- The running docstring state after each line of a script: entry `i` is the
state computed for line `i` (the state the skip predicate sees on that line). -/
def pyStateTrace : List Line → Bool → Option Line → List (Bool × Option Line)
  | [], _, _ => []
  | l :: rest, inD, q =>
    is_docstring_line l inD q
    :: pyStateTrace rest (is_docstring_line l inD q).1 (is_docstring_line l inD q).2

/-- A notebook cell's source, as serialized in the notebook document: either
one multi-line string or an already-split list of line strings. -/
inductive CellSource : Type where
  | str : List Char → CellSource
  | list : List Line → CellSource

/-- A notebook cell: a cell-type tag (`none` models a missing/absent
`cell_type` field) and a source. -/
structure Cell : Type where
  cell_type : Option String
  source : CellSource

/-- Splitting a character sequence at newline characters, as in Python's
`s.split("\n")` (so a trailing newline yields a final empty line and the
empty string yields one empty line). -/
def splitOnNl : List Char → List Line
  | [] => [[]]
  | c :: rest =>
    if c = '\n' then [] :: splitOnNl rest
    else
      match splitOnNl rest with
      | [] => [[c]]
      | h :: t => (c :: h) :: t

/-- Removing trailing newline characters from one line, as in Python's
`line.rstrip("\n")`. -/
def rstripNl (l : Line) : Line :=
  (l.reverse.dropWhile (fun c => c = '\n')).reverse

/-- Modelled from the spec: normalization of a cell's source into an ordered
sequence of lines (§4.6, §3 of the design document): a single string is split
on line boundaries, an already-split list is accepted as is; a finding's raw
line text carries no trailing newline characters. -/
def normalize_source : CellSource → List Line
  | CellSource.str s => splitOnNl s
  | CellSource.list ls => ls.map rstripNl

/-- A notebook finding: (composite "Cell N, Line M" location, label, raw line text). -/
abbrev NbFinding : Type := String × String × Line

/-- The composite location string `"Cell {cellIdx+1}, Line {m}"` for the
0-based cell index `cellIdx` and the 1-based in-cell line number `m`. -/
def cellLoc (cellIdx m : Nat) : String :=
  "Cell " ++ toString (cellIdx + 1) ++ ", Line " ++ toString m

/-- Modelled from the spec: the per-line loop of
`sparkgrep.file_processors._process_notebook_cell` (not under `src/`; §4.6):
iterate a code cell's lines with a 1-based in-cell counter `m`, apply the
notebook skip predicate, and tag findings with the composite location. -/
def process_cell_lines (search : String → Line → Bool) (ps : List Pattern)
    (cellIdx : Nat) : List Line → Nat → List NbFinding
  | [], _ => []
  | l :: rest, m =>
    (if should_skip_notebook_line l then []
     else (check_line_for_patterns search l ps).map (fun r => (cellLoc cellIdx m, r.1, r.2)))
    ++ process_cell_lines search ps cellIdx rest (m + 1)

/-- Modelled from the spec: `sparkgrep.file_processors._process_notebook_cell`
(not under `src/`; §4.6): a cell whose type is not `"code"` (markdown, raw,
missing or unrecognized) contributes no findings; a code cell's source is
normalized into lines and scanned from in-cell line 1. -/
def process_notebook_cell (search : String → Line → Bool) (cell : Cell)
    (index : Nat) (ps : List Pattern) : List NbFinding :=
  if cell.cell_type == some "code" then
    process_cell_lines search ps index (normalize_source cell.source) 1
  else
    []

/-- Modelled from the spec: the cell-iteration loop of
`sparkgrep.file_processors.check_notebook_file` (not under `src/`; §4.6):
cells are processed in order with their 0-based index. -/
def process_cells (search : String → Line → Bool) (ps : List Pattern) :
    List Cell → Nat → List NbFinding
  | [], _ => []
  | c :: rest, i =>
    process_notebook_cell search c i ps ++ process_cells search ps rest (i + 1)

/-- Modelled from the spec: `sparkgrep.file_processors.check_notebook_file`
(not under `src/`; §4.6).  Parsing the notebook document is external I/O, so
the analyzer receives the safe-read result: `none` models a missing,
unreadable or non-parseable document and degrades to an empty finding list
(the diagnostic print is outside the embedding). -/
def check_notebook_file (search : String → Line → Bool)
    (nb : Option (List Cell)) (ps : List Pattern) : List NbFinding :=
  match nb with
  | none => []
  | some cells => process_cells search ps cells 0

/-- What the Dispatcher can observe about one input file: the path's
extension, the result of reading it as text lines (`none` when missing or
unreadable) and the result of parsing it as a notebook document (`none` when
missing, unreadable or not valid notebook JSON). -/
structure SourceFile : Type where
  suffix : String
  text : Option (List Line)
  notebook : Option (List Cell)

/-- A dispatched finding location: a plain 1-based line number for scripts,
a composite "Cell N, Line M" string for notebooks. -/
abbrev DispatchFinding : Type := (Nat ⊕ String) × String × Line

/-- Modelled from the spec: `sparkgrep.file_processors.process_single_file`
(not under `src/`; §4.7): exact, case-sensitive extension dispatch — `.py`
routes to the plain-script analyzer, `.ipynb` to the notebook analyzer, and
every other extension (case variants and extensionless paths included)
yields an empty result with no error. -/
def process_single_file (search : String → Line → Bool) (f : SourceFile)
    (ps : List Pattern) : List DispatchFinding :=
  if f.suffix == ".py" then
    (check_python_file search f.text ps).map (fun r => (Sum.inl r.1, r.2))
  else if f.suffix == ".ipynb" then
    (check_notebook_file search f.notebook ps).map (fun r => (Sum.inr r.1, r.2))
  else
    []

/-- Splitting a raw additional-pattern string at its first colon:
`none` when the string contains no colon. -/
def splitFirstColon : List Char → Option (List Char × List Char)
  | [] => none
  | c :: rest =>
    if c = ':' then some ([], rest)
    else (splitFirstColon rest).map (fun pr => (c :: pr.1, pr.2))

/-- Modelled from the spec: parsing one raw `"<regex>:<label>"` string
(§4.1): everything before the first colon is the regex, everything after it
(further colons included) is the label; a string with no colon is invalid. -/
def parse_additional_pattern (s : List Char) : Option Pattern :=
  (splitFirstColon s).map (fun pr => (String.mk pr.1, String.mk pr.2))

/-- Modelled from the spec: `sparkgrep.patterns.build_patterns_list` (not
under `src/`; §4.1).  The default pattern table is external configuration
(the module-level constant of the missing `patterns` module), so it enters as
the parameter `defaults`.  The base is the defaults (omitted entirely when
disabled); each raw additional string is parsed at its first colon and
appended in order, and an invalid string is skipped (the diagnostic warning
is outside the embedding) without aborting the remaining strings. -/
def build_patterns_list (defaults : List Pattern)
    (disable_default_patterns : Bool)
    (additional_patterns : Option (List (List Char))) : List Pattern :=
  (additional_patterns.getD []).foldl
    (fun acc s =>
      match parse_additional_pattern s with
      | some p => acc ++ [p]
      | none => acc)
    (if disable_default_patterns then [] else defaults)

/-- A concrete, executable stand-in for the search collaborator, used to
evaluate the development on closed inputs: case-insensitive literal
substring search (the regex-free fragment of `re.search` with
`re.IGNORECASE`). -/
def litSearch (pat : String) (line : Line) : Bool :=
  containsSub (pat.data.map Char.toLower) (line.map Char.toLower)

/-! ## Basic lemmas about the character-level helpers -/

lemma isPrefixOf_self : ∀ l : List Char, l.isPrefixOf l = true
  | [] => rfl
  | c :: rest => by simp [List.isPrefixOf, isPrefixOf_self rest]

lemma containsSub_self (d : List Char) : containsSub d d = true := by
  cases d with
  | nil => rfl
  | cons c rest => simp [containsSub, isPrefixOf_self]

lemma containsSub_append_left (d : List Char) : ∀ p : List Char, containsSub d (p ++ d) = true
  | [] => by simpa using containsSub_self d
  | c :: p => by
    cases d with
    | nil => simp [containsSub, List.isPrefixOf]
    | cons a as => simp [containsSub, containsSub_append_left (a :: as) p]

lemma dq3_isPrefixOf_eq_false {s : List Char} (h : sq3.isPrefixOf s = true) :
    dq3.isPrefixOf s = false := by
  cases s with
  | nil => simp [sq3, List.isPrefixOf] at h
  | cons c rest =>
    simp only [sq3, List.isPrefixOf, Bool.and_eq_true, beq_iff_eq] at h
    simp [dq3, List.isPrefixOf, h.1.symm]

lemma sq3_isPrefixOf_eq_false {s : List Char} (h : dq3.isPrefixOf s = true) :
    sq3.isPrefixOf s = false := by
  cases s with
  | nil => simp [dq3, List.isPrefixOf] at h
  | cons c rest =>
    simp only [dq3, List.isPrefixOf, Bool.and_eq_true, beq_iff_eq] at h
    simp [sq3, List.isPrefixOf, h.1.symm]

/-! ## Characterization of the docstring-opener detector -/

lemma detect_docstring_start_eq_some_dq3_iff (line : Line) :
    detect_docstring_start line = some dq3 ↔
      (dq3.isPrefixOf (lstrip line) = true ∧ countOcc dq3 line = 1) := by
  unfold detect_docstring_start
  split_ifs with h1 h2
  · simp only [Bool.and_eq_true, beq_iff_eq] at h1
    simp [h1]
  · simp only [Bool.and_eq_true, beq_iff_eq] at h1 h2
    constructor
    · intro hs
      exact absurd (Option.some.inj hs) (by decide)
    · intro hpc
      have := dq3_isPrefixOf_eq_false h2.1
      rw [hpc.1] at this
      cases this
  · simp only [Bool.and_eq_true, beq_iff_eq, not_and] at h1
    constructor
    · intro hs; cases hs
    · intro hpc
      exact absurd (h1 hpc.1) (by simp [hpc.2])

lemma detect_docstring_start_eq_some_sq3_iff (line : Line) :
    detect_docstring_start line = some sq3 ↔
      (sq3.isPrefixOf (lstrip line) = true ∧ countOcc sq3 line = 1) := by
  unfold detect_docstring_start
  split_ifs with h1 h2
  · simp only [Bool.and_eq_true, beq_iff_eq] at h1
    constructor
    · intro hs
      exact absurd (Option.some.inj hs) (by decide)
    · intro hpc
      have := sq3_isPrefixOf_eq_false h1.1
      rw [hpc.1] at this
      cases this
  · simp only [Bool.and_eq_true, beq_iff_eq] at h2
    simp [h2]
  · simp only [Bool.and_eq_true, beq_iff_eq, not_and] at h2
    constructor
    · intro hs; cases hs
    · intro hpc
      exact absurd (h2 hpc.1) (by simp [hpc.2])

lemma detect_docstring_start_mem {line : Line} {d : Line}
    (h : detect_docstring_start line = some d) : d = dq3 ∨ d = sq3 := by
  unfold detect_docstring_start at h
  split_ifs at h
  · exact Or.inl (Option.some.inj h).symm
  · exact Or.inr (Option.some.inj h).symm

/-! ## The pattern scan as an ordered filter of the pattern table -/

lemma check_line_foldl_general (search : String → Line → Bool) (line : Line) :
    ∀ (ps : List Pattern) (acc : List (String × Line)),
      ps.foldl (fun acc p => if search p.1 line then acc ++ [(p.2, line)] else acc) acc
        = acc ++ (ps.filter (fun p => search p.1 line)).map (fun p => (p.2, line))
  | [], acc => by simp
  | p :: ps, acc => by
    by_cases h : search p.1 line = true
    · simp [List.foldl_cons, List.filter_cons, h,
        check_line_foldl_general search line ps (acc ++ [(p.2, line)])]
    · simp only [Bool.not_eq_true] at h
      simp [List.foldl_cons, List.filter_cons, h,
        check_line_foldl_general search line ps acc]

lemma check_line_spec (search : String → Line → Bool) (line : Line) (ps : List Pattern) :
    check_line_for_patterns search line ps
      = (ps.filter (fun p => search p.1 line)).map (fun p => (p.2, line)) := by
  simpa using check_line_foldl_general search line ps []

/-! ## Lemmas about additional-pattern parsing and the table builder -/

lemma splitFirstColon_eq_none : ∀ s : List Char, ':' ∉ s → splitFirstColon s = none
  | [], _ => rfl
  | c :: rest, h => by
    have hc : ¬ c = ':' := by
      intro e
      exact h (by simp [e])
    have h2 : ':' ∉ rest := fun m => h (List.mem_cons_of_mem _ m)
    simp [splitFirstColon, hc, splitFirstColon_eq_none rest h2]

lemma splitFirstColon_append : ∀ (a b : List Char), ':' ∉ a →
    splitFirstColon (a ++ ':' :: b) = some (a, b)
  | [], b, _ => by simp [splitFirstColon]
  | c :: rest, b, h => by
    have hc : ¬ c = ':' := by
      intro e
      exact h (by simp [e])
    have h2 : ':' ∉ rest := fun m => h (List.mem_cons_of_mem _ m)
    simp [splitFirstColon, hc, splitFirstColon_append rest b h2]

lemma build_patterns_foldl_general :
    ∀ (ls : List (List Char)) (acc : List Pattern),
      ls.foldl (fun acc s =>
          match parse_additional_pattern s with
          | some p => acc ++ [p]
          | none => acc) acc
        = acc ++ ls.filterMap parse_additional_pattern
  | [], acc => by simp
  | s :: ls, acc => by
    cases h : parse_additional_pattern s with
    | none =>
      simp only [List.foldl_cons, h, List.filterMap_cons_none h]
      exact build_patterns_foldl_general ls acc
    | some p =>
      simp only [List.foldl_cons, h, List.filterMap_cons_some h]
      rw [build_patterns_foldl_general ls (acc ++ [p])]
      simp

lemma build_patterns_list_spec (defaults : List Pattern) (disable : Bool)
    (adds : Option (List (List Char))) :
    build_patterns_list defaults disable adds
      = (if disable then [] else defaults)
        ++ (adds.getD []).filterMap parse_additional_pattern := by
  unfold build_patterns_list
  exact build_patterns_foldl_general _ _

/-! ## Structure of the plain-script scan -/

lemma pyStateTrace_length : ∀ (lines : List Line) (inD : Bool) (q : Option Line),
    (pyStateTrace lines inD q).length = lines.length
  | [], _, _ => rfl
  | l :: rest, inD, q => by
    simp [pyStateTrace, pyStateTrace_length rest]

lemma process_python_lines_eq_flatten (search : String → Line → Bool) (ps : List Pattern) :
    ∀ (lines : List Line) (n : Nat) (inD : Bool) (q : Option Line),
      process_python_lines search ps lines n inD q
        = (((List.enumFrom n lines).zip (pyStateTrace lines inD q)).map
            (fun e => if should_skip_line e.1.2 e.2.1 then []
                      else (check_line_for_patterns search e.1.2 ps).map
                        (fun r => (e.1.1, r.1, r.2)))).flatten
  | [], n, inD, q => by
    simp [process_python_lines, pyStateTrace]
  | l :: rest, n, inD, q => by
    simp only [process_python_lines, pyStateTrace, List.enumFrom_cons, List.zip_cons_cons,
      List.map_cons, List.flatten_cons]
    rw [process_python_lines_eq_flatten search ps rest (n + 1)
      (is_docstring_line l inD q).1 (is_docstring_line l inD q).2]

lemma mem_check_line_snd {search : String → Line → Bool} {line : Line} {ps : List Pattern}
    {r : String × Line} (h : r ∈ check_line_for_patterns search line ps) : r.2 = line := by
  rw [check_line_spec] at h
  rcases List.mem_map.mp h with ⟨p, _, hp⟩
  rw [← hp]

lemma mem_process_python_lines (search : String → Line → Bool) (ps : List Pattern) :
    ∀ (lines : List Line) (n : Nat) (inD : Bool) (q : Option Line) (f : PyFinding),
      f ∈ process_python_lines search ps lines n inD q →
      ∃ i, ∃ (h : i < lines.length), ∃ (h2 : i < (pyStateTrace lines inD q).length),
        f.1 = n + i ∧ f.2.2 = lines[i] ∧
        should_skip_line lines[i] ((pyStateTrace lines inD q)[i]).1 = false ∧
        f.2 ∈ check_line_for_patterns search lines[i] ps
  | l :: rest, n, inD, q, f, hf => by
    simp only [process_python_lines] at hf
    rcases List.mem_append.mp hf with hl | hr
    · by_cases hskip : should_skip_line l (is_docstring_line l inD q).1 = true
      · rw [if_pos hskip] at hl
        cases hl
      · rw [if_neg hskip] at hl
        rcases List.mem_map.mp hl with ⟨⟨r1, r2⟩, hrmem, hrf⟩
        refine ⟨0, by simp, by simp [pyStateTrace], ?_, ?_, ?_, ?_⟩
        · rw [← hrf]
          simp
        · rw [← hrf]
          simpa using mem_check_line_snd hrmem
        · simp only [List.getElem_cons_zero, pyStateTrace, List.getElem_cons_zero]
          exact Bool.not_eq_true _ ▸ hskip
        · rw [← hrf]
          simpa using hrmem
    · rcases mem_process_python_lines search ps rest (n + 1)
        (is_docstring_line l inD q).1 (is_docstring_line l inD q).2 f hr with
        ⟨i, h, h2, h3, h4, h5, h6⟩
      refine ⟨i + 1, by simpa using Nat.succ_lt_succ h, ?_, ?_, ?_, ?_, ?_⟩
      · simp only [pyStateTrace, List.length_cons]
        exact Nat.succ_lt_succ h2
      · omega
      · simpa using h4
      · simpa [pyStateTrace] using h5
      · simpa using h6

lemma mem_py_block_fst {search : String → Line → Bool} {ps : List Pattern} {n : Nat}
    {l : Line} {st : Bool} {f : PyFinding}
    (hf : f ∈ (if should_skip_line l st then []
               else (check_line_for_patterns search l ps).map (fun r => (n, r.1, r.2)))) :
    f.1 = n := by
  by_cases h : should_skip_line l st = true
  · rw [if_pos h] at hf
    cases hf
  · rw [if_neg h] at hf
    rcases List.mem_map.mp hf with ⟨r, _, hr⟩
    rw [← hr]

lemma process_python_lines_loc_lower (search : String → Line → Bool) (ps : List Pattern)
    (lines : List Line) (n : Nat) (inD : Bool) (q : Option Line) (f : PyFinding)
    (hf : f ∈ process_python_lines search ps lines n inD q) : n ≤ f.1 := by
  rcases mem_process_python_lines search ps lines n inD q f hf with ⟨i, _, _, h3, _⟩
  omega

lemma process_python_lines_pairwise (search : String → Line → Bool) (ps : List Pattern) :
    ∀ (lines : List Line) (n : Nat) (inD : Bool) (q : Option Line),
      List.Pairwise (fun a b : PyFinding => a.1 ≤ b.1)
        (process_python_lines search ps lines n inD q)
  | [], _, _, _ => List.Pairwise.nil
  | l :: rest, n, inD, q => by
    simp only [process_python_lines]
    refine List.pairwise_append.mpr
      ⟨?_, process_python_lines_pairwise search ps rest (n + 1) _ _, ?_⟩
    · by_cases h : should_skip_line l (is_docstring_line l inD q).1 = true
      · simp [h]
      · rw [if_neg h]
        refine List.pairwise_map.mpr ?_
        exact List.pairwise_of_forall (fun _ _ => le_refl n)
    · intro a ha b hb
      have h1 := mem_py_block_fst ha
      have h2 := process_python_lines_loc_lower search ps rest (n + 1) _ _ b hb
      omega

/-! ## Structure of the notebook scan -/

lemma splitOnNl_ne_nil (s : List Char) : splitOnNl s ≠ [] := by
  cases s with
  | nil => simp [splitOnNl]
  | cons c rest =>
    rw [splitOnNl]
    split
    · simp
    · split <;> simp

lemma splitOnNl_no_nl : ∀ (s : List Char), ∀ p ∈ splitOnNl s, '\n' ∉ p
  | [], p, hp => by
    simp only [splitOnNl, List.mem_singleton] at hp
    simp [hp]
  | c :: rest, p, hp => by
    rw [splitOnNl] at hp
    by_cases hc : c = '\n'
    · rw [if_pos hc] at hp
      rcases List.mem_cons.mp hp with h | h
      · simp [h]
      · exact splitOnNl_no_nl rest p h
    · rw [if_neg hc] at hp
      cases hrec : splitOnNl rest with
      | nil => exact absurd hrec (splitOnNl_ne_nil rest)
      | cons h t =>
        rw [hrec] at hp
        rcases List.mem_cons.mp hp with hph | hpt
        · subst hph
          intro hmem
          rcases List.mem_cons.mp hmem with he | he
          · exact hc he.symm
          · exact splitOnNl_no_nl rest h (hrec ▸ List.mem_cons_self h t) he
        · exact splitOnNl_no_nl rest p (hrec ▸ List.mem_cons_of_mem h hpt)

lemma rstripNl_eq_self {l : Line} (h : '\n' ∉ l) : rstripNl l = l := by
  unfold rstripNl
  have hd : l.reverse.dropWhile (fun c => c = '\n') = l.reverse := by
    cases hr : l.reverse with
    | nil => rfl
    | cons c cs =>
      have hc : c ∈ l := List.mem_reverse.mp (hr ▸ List.mem_cons_self c cs)
      have hne : ¬ (c = '\n') := fun e => h (e ▸ hc)
      simp [List.dropWhile_cons, hne]
  rw [hd, List.reverse_reverse]

lemma map_eq_self_of_mem {α : Type} {f : α → α} :
    ∀ {l : List α}, (∀ x ∈ l, f x = x) → l.map f = l
  | [], _ => rfl
  | x :: xs, h => by
    rw [List.map_cons, h x (List.mem_cons_self x xs),
      map_eq_self_of_mem (fun y hy => h y (List.mem_cons_of_mem x hy))]

lemma normalize_source_str_eq_list (content : List Char) :
    normalize_source (CellSource.str content)
      = normalize_source (CellSource.list (splitOnNl content)) := by
  simp only [normalize_source]
  symm
  exact map_eq_self_of_mem (fun p hp => rstripNl_eq_self (splitOnNl_no_nl content p hp))

lemma process_cell_lines_eq_flatten (search : String → Line → Bool) (ps : List Pattern)
    (cellIdx : Nat) :
    ∀ (ls : List Line) (m : Nat),
      process_cell_lines search ps cellIdx ls m
        = ((List.enumFrom m ls).map
            (fun e => if should_skip_notebook_line e.2 then []
                      else (check_line_for_patterns search e.2 ps).map
                        (fun r => (cellLoc cellIdx e.1, r.1, r.2)))).flatten
  | [], m => by simp [process_cell_lines]
  | l :: rest, m => by
    simp only [process_cell_lines, List.enumFrom_cons, List.map_cons, List.flatten_cons]
    rw [process_cell_lines_eq_flatten search ps cellIdx rest (m + 1)]

lemma mem_process_cell_lines (search : String → Line → Bool) (ps : List Pattern)
    (cellIdx : Nat) :
    ∀ (ls : List Line) (m : Nat) (f : NbFinding),
      f ∈ process_cell_lines search ps cellIdx ls m →
      ∃ j, ∃ (h : j < ls.length),
        f.1 = cellLoc cellIdx (m + j) ∧ f.2.2 = ls[j] ∧
        should_skip_notebook_line ls[j] = false ∧
        f.2 ∈ check_line_for_patterns search ls[j] ps
  | l :: rest, m, f, hf => by
    simp only [process_cell_lines] at hf
    rcases List.mem_append.mp hf with hl | hr
    · by_cases hskip : should_skip_notebook_line l = true
      · rw [if_pos hskip] at hl
        cases hl
      · rw [if_neg hskip] at hl
        rcases List.mem_map.mp hl with ⟨⟨r1, r2⟩, hrmem, hrf⟩
        refine ⟨0, by simp, ?_, ?_, ?_, ?_⟩
        · rw [← hrf]
          simp
        · rw [← hrf]
          simpa using mem_check_line_snd hrmem
        · simpa using Bool.not_eq_true _ ▸ hskip
        · rw [← hrf]
          simpa using hrmem
    · rcases mem_process_cell_lines search ps cellIdx rest (m + 1) f hr with
        ⟨j, h, h1, h2, h3, h4⟩
      refine ⟨j + 1, by simpa using Nat.succ_lt_succ h, ?_, ?_, ?_, ?_⟩
      · rw [h1]
        congr 1
        omega
      · simpa using h2
      · simpa using h3
      · simpa using h4

lemma process_cells_eq_flatten (search : String → Line → Bool) (ps : List Pattern) :
    ∀ (cells : List Cell) (i : Nat),
      process_cells search ps cells i
        = ((List.enumFrom i cells).map
            (fun e => process_notebook_cell search e.2 e.1 ps)).flatten
  | [], i => by simp [process_cells]
  | c :: rest, i => by
    simp only [process_cells, List.enumFrom_cons, List.map_cons, List.flatten_cons]
    rw [process_cells_eq_flatten search ps rest (i + 1)]

lemma mem_process_cells (search : String → Line → Bool) (ps : List Pattern) :
    ∀ (cells : List Cell) (i : Nat) (f : NbFinding),
      f ∈ process_cells search ps cells i →
      ∃ k, ∃ (h : k < cells.length),
        f ∈ process_notebook_cell search cells[k] (i + k) ps
  | c :: rest, i, f, hf => by
    simp only [process_cells] at hf
    rcases List.mem_append.mp hf with hl | hr
    · refine ⟨0, by simp, ?_⟩
      simpa using hl
    · rcases mem_process_cells search ps rest (i + 1) f hr with ⟨k, h, hmem⟩
      refine ⟨k + 1, by simpa using Nat.succ_lt_succ h, ?_⟩
      have : i + 1 + k = i + (k + 1) := by omega
      rw [List.getElem_cons_succ, ← this]
      exact hmem

lemma mem_process_notebook_cell (search : String → Line → Bool) (ps : List Pattern)
    (cell : Cell) (index : Nat) (f : NbFinding)
    (hf : f ∈ process_notebook_cell search cell index ps) :
    cell.cell_type = some "code" ∧
    ∃ j, ∃ (h : j < (normalize_source cell.source).length),
      f.1 = cellLoc index (j + 1) ∧ f.2.2 = (normalize_source cell.source)[j] ∧
      should_skip_notebook_line ((normalize_source cell.source)[j]) = false ∧
      f.2 ∈ check_line_for_patterns search ((normalize_source cell.source)[j]) ps := by
  unfold process_notebook_cell at hf
  by_cases ht : (cell.cell_type == some "code") = true
  · rw [if_pos ht] at hf
    refine ⟨by simpa using ht, ?_⟩
    rcases mem_process_cell_lines search ps index (normalize_source cell.source) 1 f hf with
      ⟨j, h, h1, h2, h3, h4⟩
    refine ⟨j, h, ?_, h2, h3, h4⟩
    rw [h1]
    congr 1
    omega
  · rw [if_neg ht] at hf
    cases hf

/-! ## Claim theorems -/

/-- C2: `detect_docstring_start` returns a delimiter if and only if the
line, once its leading whitespace is stripped, starts with that triple-quote
delimiter and the delimiter occurs only once in the line; a line whose
delimiter occurs an even number of times, or whose only occurrence does not
start the stripped line, yields `none`, and the only possible results are
the two triple-quote delimiters. -/
theorem claim_detect_docstring_start_iff :
    ∀ line : Line,
      (detect_docstring_start line = some dq3 ↔
        (dq3.isPrefixOf (lstrip line) = true ∧ countOcc dq3 line = 1))
      ∧ (detect_docstring_start line = some sq3 ↔
        (sq3.isPrefixOf (lstrip line) = true ∧ countOcc sq3 line = 1))
      ∧ (∀ d : Line, countOcc d line % 2 = 0 → detect_docstring_start line ≠ some d)
      ∧ (∀ d : Line, detect_docstring_start line = some d → d = dq3 ∨ d = sq3) := by
  intro line
  refine ⟨detect_docstring_start_eq_some_dq3_iff line,
    detect_docstring_start_eq_some_sq3_iff line, ?_,
    fun d h => detect_docstring_start_mem h⟩
  intro d heven heq
  rcases detect_docstring_start_mem heq with rfl | rfl
  · rcases (detect_docstring_start_eq_some_dq3_iff line).mp heq with ⟨-, hc⟩
    omega
  · rcases (detect_docstring_start_eq_some_sq3_iff line).mp heq with ⟨-, hc⟩
    omega

/-- Witness for C2: a line starting with an unmatched `"""` opens a
double-quote docstring, and a line with zero (an even number of)
occurrences is never reported as an opener. -/
theorem claim_detect_docstring_start_iff_witness :
    detect_docstring_start ['"', '"', '"', 'a'] = some dq3 ∧
    detect_docstring_start ['a'] ≠ some sq3 := by
  refine ⟨(claim_detect_docstring_start_iff ['"', '"', '"', 'a']).1.mpr
    ⟨by decide, by decide⟩, ?_⟩
  exact (claim_detect_docstring_start_iff ['a']).2.2.1 sq3 (by decide)

/-- C3: while inside a docstring opened with delimiter `d`,
`is_docstring_line` closes the state exactly when the line contains `d` —
regardless of what precedes the closing occurrence — and otherwise (in
particular on an occurrence of the other triple-quote delimiter alone)
keeps the state `(true, some d)`. -/
theorem claim_is_docstring_line_inside_iff :
    ∀ (line d : Line), d = dq3 ∨ d = sq3 →
      ((is_docstring_line line true (some d) = (false, none)) ↔ containsSub d line = true)
      ∧ (containsSub d line = false →
          is_docstring_line line true (some d) = (true, some d))
      ∧ (∀ p : Line, is_docstring_line (p ++ d) true (some d) = (false, none))
      ∧ (∀ e : Line, e = dq3 ∨ e = sq3 → e ≠ d →
          is_docstring_line e true (some d) = (true, some d)) := by
  intro line d hd
  have hsimp : ∀ s : Line, is_docstring_line s true (some d)
      = if containsSub d s then (false, none) else (true, some d) := fun s => rfl
  refine ⟨?_, ?_, ?_, ?_⟩
  · rw [hsimp]
    by_cases h : containsSub d line = true
    · simp [h]
    · simp only [Bool.not_eq_true] at h
      simp [h]
  · intro h
    rw [hsimp, h]
    simp
  · intro p
    rw [hsimp, containsSub_append_left d p]
    simp
  · intro e he hne
    rw [hsimp]
    have hcf : containsSub d e = false := by
      rcases hd with rfl | rfl <;> rcases he with rfl | rfl
      · exact absurd rfl hne
      · decide
      · decide
      · exact absurd rfl hne
    rw [hcf]
    simp

/-- Witness for C3: a prefixed closing `"""` ends the docstring, while a
lone `'''` inside a `"""`-docstring does not. -/
theorem claim_is_docstring_line_inside_iff_witness :
    is_docstring_line ['x', '"', '"', '"'] true (some dq3) = (false, none) ∧
    is_docstring_line sq3 true (some dq3) = (true, some dq3) := by
  constructor
  · exact (claim_is_docstring_line_inside_iff ['x', '"', '"', '"'] dq3
      (Or.inl rfl)).1.mpr (by decide)
  · exact (claim_is_docstring_line_inside_iff sq3 dq3 (Or.inl rfl)).2.2.2 sq3
      (Or.inr rfl) (by decide)

/-- C10 counterexample: over arbitrary delimiter arguments the shape
invariant fails: on the ill-formed inputs inside-with-no-delimiter and
inside-with-a-non-triple-quote-delimiter, `is_docstring_line` echoes the
ill-formed state back — `(true, none)` and `(true, some ['x'])` — neither
of which is `(false, none)` or `(true, d)` with `d` a triple-quote
delimiter.  (The file scan never produces such inputs: it starts from
`(false, none)` and only ever threads well-formed states.) -/
theorem claim_is_docstring_line_well_formed_state_counterexample :
    is_docstring_line ['x'] true none = (true, none) ∧
    is_docstring_line ['y'] true (some ['x']) = (true, some ['x']) ∧
    ¬ (is_docstring_line ['x'] true none = (false, none)
       ∨ is_docstring_line ['x'] true none = (true, some dq3)
       ∨ is_docstring_line ['x'] true none = (true, some sq3)) := by
  decide

/-- C10 (amended): on every well-formed threaded state (when inside, the delimiter is
one of the two triple-quote delimiters), `is_docstring_line` returns a
well-formed state: either `(false, none)` or `(true, d)` with `d` one of
`"""` and `'''`;
inside-without-delimiter and outside-with-delimiter are never produced. -/
theorem claim_is_docstring_line_well_formed_state :
    ∀ (line : Line) (inD : Bool) (q : Option Line),
      (inD = true → q = some dq3 ∨ q = some sq3) →
      is_docstring_line line inD q = (false, none)
      ∨ is_docstring_line line inD q = (true, some dq3)
      ∨ is_docstring_line line inD q = (true, some sq3) := by
  intro line inD q hq
  cases inD with
  | false =>
    have hred : is_docstring_line line false q
        = match detect_docstring_start line with
          | some d => (true, some d)
          | none => (false, none) := rfl
    cases h : detect_docstring_start line with
    | none =>
      rw [hred, h]
      exact Or.inl rfl
    | some d =>
      rcases detect_docstring_start_mem h with rfl | rfl
      · rw [hred, h]
        exact Or.inr (Or.inl rfl)
      · rw [hred, h]
        exact Or.inr (Or.inr rfl)
  | true =>
    rcases hq rfl with rfl | rfl
    · have hred : is_docstring_line line true (some dq3)
          = if containsSub dq3 line then (false, none) else (true, some dq3) := rfl
      rw [hred]
      by_cases h : containsSub dq3 line = true
      · simp [h]
      · simp only [Bool.not_eq_true] at h
        simp [h]
    · have hred : is_docstring_line line true (some sq3)
          = if containsSub sq3 line then (false, none) else (true, some sq3) := rfl
      rw [hred]
      by_cases h : containsSub sq3 line = true
      · simp [h]
      · simp only [Bool.not_eq_true] at h
        simp [h]

/-- Witness for C10 at a concrete well-formed state. -/
theorem claim_is_docstring_line_well_formed_state_witness :
    is_docstring_line ['x'] true (some dq3) = (false, none)
    ∨ is_docstring_line ['x'] true (some dq3) = (true, some dq3)
    ∨ is_docstring_line ['x'] true (some dq3) = (true, some sq3) :=
  claim_is_docstring_line_well_formed_state ['x'] true (some dq3) (fun _ => Or.inl rfl)

/-- C6: the pattern scan returns exactly one (label, original-line-text)
pair per pattern whose search fires on the line, independently per pattern
and in pattern-table order: it is the ordered filter of the table by the
(case-insensitive) search, each hit paired with the unchanged line text. -/
theorem claim_check_line_for_patterns_order :
    ∀ (search : String → Line → Bool) (line : Line) (ps : List Pattern),
      check_line_for_patterns search line ps
        = (ps.filter (fun p => search p.1 line)).map (fun p => (p.2, line)) :=
  fun search line ps => check_line_spec search line ps

/-- C7: the notebook classifier skips a line exactly when its stripped form
starts with `#` or `%` (so `%%` cell magics are covered); a blank or
whitespace-only line is not skipped — unlike the script classifier, which
does skip blank lines. -/
theorem claim_should_skip_notebook_line_iff :
    ∀ line : Line,
      (should_skip_notebook_line line = true ↔
        ((lstrip line).head? = some '#' ∨ (lstrip line).head? = some '%'))
      ∧ (∀ rest : Line, should_skip_notebook_line ('%' :: '%' :: rest) = true)
      ∧ (lstrip line = [] → should_skip_notebook_line line = false)
      ∧ (∀ b : Line, lstrip b = [] → should_skip_line b false = true) := by
  intro line
  refine ⟨?_, ?_, ?_, ?_⟩
  · unfold should_skip_notebook_line
    simp
  · intro rest
    have h : isPyWs '%' = false := by decide
    simp [should_skip_notebook_line, lstrip, h]
  · intro h
    unfold should_skip_notebook_line
    rw [h]
    rfl
  · intro b h
    unfold should_skip_line
    rw [h]
    rfl

/-- Witness for C7: a `%%` magic line is skipped, a whitespace-only notebook
line is not, and the same whitespace-only line is skipped by the script
classifier. -/
theorem claim_should_skip_notebook_line_iff_witness :
    should_skip_notebook_line ['%', '%', 'x'] = true ∧
    should_skip_notebook_line [' ', '\t'] = false ∧
    should_skip_line [' ', '\t'] false = true := by
  refine ⟨(claim_should_skip_notebook_line_iff []).2.1 ['x'], ?_, ?_⟩
  · exact (claim_should_skip_notebook_line_iff [' ', '\t']).2.2.1 (by decide)
  · exact (claim_should_skip_notebook_line_iff []).2.2.2 [' ', '\t'] (by decide)

/-- C9: `build_patterns_list` is the defaults (omitted entirely when
disabled) followed by the parsed additional patterns in supplied order
without deduplication; a valid additional string is split at its first colon
only (later colons stay in the label), and a string with no colon is skipped
without disturbing the remaining additional patterns. -/
theorem claim_build_patterns_list_first_colon :
    ∀ (defaults : List Pattern) (disable : Bool) (adds : Option (List (List Char))),
      (build_patterns_list defaults disable adds
        = (if disable then [] else defaults)
          ++ (adds.getD []).filterMap parse_additional_pattern)
      ∧ (∀ a b : List Char, ':' ∉ a →
          parse_additional_pattern (a ++ ':' :: b) = some (String.mk a, String.mk b))
      ∧ (∀ s : List Char, ':' ∉ s → parse_additional_pattern s = none)
      ∧ (∀ (pre post : List (List Char)) (x : List Char), ':' ∉ x →
          build_patterns_list defaults disable (some (pre ++ x :: post))
            = build_patterns_list defaults disable (some (pre ++ post))) := by
  intro defaults disable adds
  refine ⟨build_patterns_list_spec _ _ _, ?_, ?_, ?_⟩
  · intro a b h
    unfold parse_additional_pattern
    rw [splitFirstColon_append a b h]
    rfl
  · intro s h
    unfold parse_additional_pattern
    rw [splitFirstColon_eq_none s h]
    rfl
  · intro pre post x h
    have hx : parse_additional_pattern x = none := by
      unfold parse_additional_pattern
      rw [splitFirstColon_eq_none x h]
      rfl
    rw [build_patterns_list_spec, build_patterns_list_spec]
    simp only [Option.getD_some]
    rw [List.filterMap_append, List.filterMap_append, List.filterMap_cons_none hx]

/-- Witness for C9: a two-colon string keeps the second colon in the label,
a colon-free string parses to nothing, and inserting a colon-free string
leaves the built table unchanged. -/
theorem claim_build_patterns_list_first_colon_witness :
    parse_additional_pattern ['a', ':', 'b', ':', 'c'] = some ("a", "b:c") ∧
    parse_additional_pattern ['n', 'o'] = none ∧
    build_patterns_list [("d", "D")] false (some [['n', 'o'], ['a', ':', 'b']])
      = build_patterns_list [("d", "D")] false (some [['a', ':', 'b']]) := by
  refine ⟨?_, ?_, ?_⟩
  · exact (claim_build_patterns_list_first_colon [] false none).2.1
      ['a'] ['b', ':', 'c'] (by decide)
  · exact (claim_build_patterns_list_first_colon [] false none).2.2.1
      ['n', 'o'] (by decide)
  · exact (claim_build_patterns_list_first_colon [("d", "D")] false none).2.2.2
      [] [['a', ':', 'b']] ['n', 'o'] (by decide)

/-- C8: the Dispatcher yields an empty finding list for every path whose
extension is not exactly `.py` or `.ipynb` (case variants such as `.PY` and
extensionless paths included), and for a recognized extension whose file is
missing, unreadable, or not parseable as a notebook (the diagnostic message
of those cases is outside the embedding; totality of the definitions stands
in for raising no exception). -/
theorem claim_process_single_file_guards :
    ∀ (search : String → Line → Bool) (f : SourceFile) (ps : List Pattern),
      (f.suffix ≠ ".py" → f.suffix ≠ ".ipynb" → process_single_file search f ps = [])
      ∧ (f.suffix = ".py" → f.text = none → process_single_file search f ps = [])
      ∧ (f.suffix = ".ipynb" → f.notebook = none →
          process_single_file search f ps = []) := by
  intro search f ps
  refine ⟨?_, ?_, ?_⟩
  · intro h1 h2
    have hA : ¬ ((f.suffix == ".py") = true) := by simpa using h1
    have hB : ¬ ((f.suffix == ".ipynb") = true) := by simpa using h2
    unfold process_single_file
    rw [if_neg hA, if_neg hB]
  · intro h1 h2
    have hA : (f.suffix == ".py") = true := by simpa using h1
    unfold process_single_file
    rw [if_pos hA, h2]
    rfl
  · intro h1 h2
    have hA : ¬ ((f.suffix == ".py") = true) := by
      rw [h1]
      decide
    have hB : (f.suffix == ".ipynb") = true := by simpa using h1
    unfold process_single_file
    rw [if_neg hA, if_pos hB, h2]
    rfl

/-- Witness for C8: an uppercase `.PY` file with readable matching content
yields nothing, and unreadable `.py` / unparseable `.ipynb` files yield
nothing. -/
theorem claim_process_single_file_guards_witness :
    process_single_file litSearch ⟨".PY", some [['d', 'f']], none⟩ [("df", "A")] = [] ∧
    process_single_file litSearch ⟨".py", none, none⟩ [("df", "A")] = [] ∧
    process_single_file litSearch ⟨".ipynb", none, none⟩ [("df", "A")] = [] := by
  refine ⟨?_, ?_, ?_⟩
  · exact (claim_process_single_file_guards litSearch
      ⟨".PY", some [['d', 'f']], none⟩ [("df", "A")]).1 (by decide) (by decide)
  · exact (claim_process_single_file_guards litSearch
      ⟨".py", none, none⟩ [("df", "A")]).2.1 rfl rfl
  · exact (claim_process_single_file_guards litSearch
      ⟨".ipynb", none, none⟩ [("df", "A")]).2.2 rfl rfl

/-- C1: the analyzers never produce a finding for a line classified as skip:
every plain-script finding carries the 1-based number and text of a line
that the script skip predicate (evaluated on the docstring state computed
for that very line) accepts, and every notebook finding comes from a code
cell and from a line the notebook skip predicate accepts — so comment,
blank, inside-docstring and magic-command lines, and markdown/raw cells,
contribute nothing regardless of the pattern table. -/
theorem claim_no_findings_from_skip_lines :
    ∀ (search : String → Line → Bool) (ps : List Pattern),
      (∀ (lines : List Line) (f : PyFinding),
        f ∈ check_python_file search (some lines) ps →
        ∃ i, ∃ (h : i < lines.length),
          ∃ (h2 : i < (pyStateTrace lines false none).length),
            f.1 = i + 1 ∧ f.2.2 = lines[i] ∧
            should_skip_line lines[i] ((pyStateTrace lines false none)[i]).1 = false)
      ∧ (∀ (cells : List Cell) (f : NbFinding),
        f ∈ check_notebook_file search (some cells) ps →
        ∃ k, ∃ (hk : k < cells.length),
          (cells[k]).cell_type = some "code" ∧
          ∃ j, ∃ (hj : j < (normalize_source (cells[k]).source).length),
            f.1 = cellLoc k (j + 1) ∧
            f.2.2 = (normalize_source (cells[k]).source)[j] ∧
            should_skip_notebook_line ((normalize_source (cells[k]).source)[j]) = false) := by
  intro search ps
  constructor
  · intro lines f hf
    simp only [check_python_file] at hf
    rcases mem_process_python_lines search ps lines 1 false none f hf with
      ⟨i, h, h2, h3, h4, h5, -⟩
    exact ⟨i, h, h2, by omega, h4, h5⟩
  · intro cells f hf
    simp only [check_notebook_file] at hf
    rcases mem_process_cells search ps cells 0 f hf with ⟨k, hk, hmem⟩
    rcases mem_process_notebook_cell search ps _ _ f hmem with ⟨hty, j, hj, h1, h2, h3, -⟩
    refine ⟨k, hk, hty, j, hj, ?_, h2, h3⟩
    rw [Nat.zero_add] at h1
    exact h1

/-- Witness for C1: in a two-line script whose first line is a comment, the
single finding is traced back to line 2, a non-skipped line. -/
theorem claim_no_findings_from_skip_lines_witness :
    ∃ i, ∃ (h : i < ([['#', 'd', 'f'], ['d', 'f']] : List Line).length),
      ∃ (h2 : i < (pyStateTrace [['#', 'd', 'f'], ['d', 'f']] false none).length),
        ((2, "A", ['d', 'f']) : PyFinding).1 = i + 1 ∧
        ((2, "A", ['d', 'f']) : PyFinding).2.2 = [['#', 'd', 'f'], ['d', 'f']][i] ∧
        should_skip_line ([['#', 'd', 'f'], ['d', 'f']][i])
          ((pyStateTrace [['#', 'd', 'f'], ['d', 'f']] false none)[i]).1 = false :=
  (claim_no_findings_from_skip_lines litSearch [("df", "A")]).1
    [['#', 'd', 'f'], ['d', 'f']] (2, "A", ['d', 'f']) (by decide)

/-- C5: non-code notebook cells contribute no findings; each finding of the
code cell with 0-based index `i` carries the location string
`"Cell " ++ toString (i+1) ++ ", Line " ++ toString m` with `m` the 1-based
in-cell line number of its (normalized) source line; a source given as one
string is scanned exactly as its split-on-newline list form; and the
document is processed cell by cell, line by line, in order. -/
theorem claim_notebook_cell_locations :
    ∀ (search : String → Line → Bool) (ps : List Pattern),
      (∀ (cell : Cell) (i : Nat), cell.cell_type ≠ some "code" →
        process_notebook_cell search cell i ps = [])
      ∧ (∀ (cell : Cell) (i : Nat) (f : NbFinding),
          f ∈ process_notebook_cell search cell i ps →
          ∃ m, 1 ≤ m ∧ ∃ (hm : m - 1 < (normalize_source cell.source).length),
            f.1 = "Cell " ++ toString (i + 1) ++ ", Line " ++ toString m ∧
            f.2.2 = (normalize_source cell.source)[m - 1])
      ∧ (∀ (t : Option String) (content : List Char) (i : Nat),
          process_notebook_cell search ⟨t, CellSource.str content⟩ i ps
            = process_notebook_cell search ⟨t, CellSource.list (splitOnNl content)⟩ i ps)
      ∧ (∀ (cell : Cell) (i : Nat), cell.cell_type = some "code" →
          process_notebook_cell search cell i ps
            = ((List.enumFrom 1 (normalize_source cell.source)).map
                (fun e => if should_skip_notebook_line e.2 then []
                          else (check_line_for_patterns search e.2 ps).map
                            (fun r => (cellLoc i e.1, r.1, r.2)))).flatten)
      ∧ (∀ cells : List Cell,
          check_notebook_file search (some cells) ps
            = ((List.enumFrom 0 cells).map
                (fun e => process_notebook_cell search e.2 e.1 ps)).flatten) := by
  intro search ps
  refine ⟨?_, ?_, ?_, ?_, ?_⟩
  · intro cell i h
    unfold process_notebook_cell
    rw [if_neg]
    simpa using h
  · intro cell i f hf
    rcases mem_process_notebook_cell search ps cell i f hf with ⟨-, j, hj, h1, h2, -, -⟩
    refine ⟨j + 1, by omega, by simpa using hj, ?_, ?_⟩
    · simpa [cellLoc] using h1
    · simpa using h2
  · intro t content i
    unfold process_notebook_cell
    dsimp only
    rw [normalize_source_str_eq_list]
  · intro cell i h
    unfold process_notebook_cell
    rw [if_pos (by simpa using h)]
    exact process_cell_lines_eq_flatten search ps i (normalize_source cell.source) 1
  · intro cells
    simp only [check_notebook_file]
    exact process_cells_eq_flatten search ps cells 0

/-- Witness for C5: a markdown cell yields nothing, and a string source is
scanned as its split list form. -/
theorem claim_notebook_cell_locations_witness :
    process_notebook_cell litSearch ⟨some "markdown", CellSource.str ['d', 'f']⟩ 3
        [("df", "A")] = [] ∧
    process_notebook_cell litSearch ⟨some "code", CellSource.str ['d', 'f']⟩ 0
        [("df", "A")]
      = process_notebook_cell litSearch
          ⟨some "code", CellSource.list (splitOnNl ['d', 'f'])⟩ 0 [("df", "A")] := by
  constructor
  · exact (claim_notebook_cell_locations litSearch [("df", "A")]).1
      ⟨some "markdown", CellSource.str ['d', 'f']⟩ 3 (by decide)
  · exact (claim_notebook_cell_locations litSearch [("df", "A")]).2.2.1
      (some "code") ['d', 'f'] 0

/-- C4 (amended): the Plain-Script Analyzer returns findings ordered by
position in the file and, within one line, in pattern-table order; each
finding carries the 1-based number and text of its line; the docstring
state is updated before the skip predicate is applied, so the opening line
of a multi-line docstring is itself skipped, and the closing-delimiter line
— whose updated state is already outside the docstring — is itself the
first line again eligible for findings (subject to the blank/comment
rules), not merely the line after it. -/
theorem claim_check_python_file_order_amended :
    ∀ (search : String → Line → Bool) (ps : List Pattern),
      (∀ lines : List Line,
        check_python_file search (some lines) ps
          = (((List.enumFrom 1 lines).zip (pyStateTrace lines false none)).map
              (fun e => if should_skip_line e.1.2 e.2.1 then []
                        else (check_line_for_patterns search e.1.2 ps).map
                          (fun r => (e.1.1, r.1, r.2)))).flatten)
      ∧ (∀ lines : List Line,
          List.Pairwise (fun a b : PyFinding => a.1 ≤ b.1)
            (check_python_file search (some lines) ps))
      ∧ (∀ (lines : List Line) (f : PyFinding),
          f ∈ check_python_file search (some lines) ps →
          ∃ i, ∃ (h : i < lines.length), f.1 = i + 1 ∧ f.2.2 = lines[i])
      ∧ (∀ line : Line,
          check_line_for_patterns search line ps
            = (ps.filter (fun p => search p.1 line)).map (fun p => (p.2, line)))
      ∧ (∀ (l d : Line) (rest : List Line), detect_docstring_start l = some d →
          check_python_file search (some (l :: rest)) ps
            = process_python_lines search ps rest 2 true (some d))
      ∧ (∀ (l d : Line) (rest : List Line) (n : Nat), containsSub d l = true →
          process_python_lines search ps (l :: rest) n true (some d)
            = (if should_skip_line l false then []
               else (check_line_for_patterns search l ps).map (fun r => (n, r.1, r.2)))
              ++ process_python_lines search ps rest (n + 1) false none) := by
  intro search ps
  refine ⟨?_, ?_, ?_, ?_, ?_, ?_⟩
  · intro lines
    simp only [check_python_file]
    exact process_python_lines_eq_flatten search ps lines 1 false none
  · intro lines
    simp only [check_python_file]
    exact process_python_lines_pairwise search ps lines 1 false none
  · intro lines f hf
    simp only [check_python_file] at hf
    rcases mem_process_python_lines search ps lines 1 false none f hf with
      ⟨i, h, -, h3, h4, -⟩
    exact ⟨i, h, by omega, h4⟩
  · intro line
    exact check_line_spec search line ps
  · intro l d rest h
    have hstate : is_docstring_line l false none = (true, some d) := by
      simp [is_docstring_line, h]
    simp only [check_python_file, process_python_lines, hstate]
    have hskip : should_skip_line l (true, some d).1 = true := by
      simp [should_skip_line]
    rw [if_pos hskip]
    simp
  · intro l d rest n h
    have hstate : is_docstring_line l true (some d) = (false, none) := by
      simp [is_docstring_line, h]
    simp only [process_python_lines, hstate]

/-- C4 counterexample: the claim's clause that the line *after* the closing
delimiter is the first line again eligible for findings is false: in this
two-line file line 1 opens a `"""` docstring, line 2 contains the closing
delimiter, and the analyzer emits a finding for line 2 itself — the
closing-delimiter line is already eligible. -/
theorem claim_check_python_file_order_counterexample :
    detect_docstring_start ['"', '"', '"', 'o', 'p', 'e', 'n'] = some dq3 ∧
    containsSub dq3 ['x', '"', '"', '"'] = true ∧
    check_python_file litSearch
        (some [['"', '"', '"', 'o', 'p', 'e', 'n'], ['x', '"', '"', '"']]) [("x", "X")]
      = [(2, "X", ['x', '"', '"', '"'])] := by
  decide

/-- Witness for C4 (amended): the closing-line conjunct applied to a
concrete closing line produces the finding on that very line. -/
theorem claim_check_python_file_order_amended_witness :
    process_python_lines litSearch [("x", "X")]
        [['x', '"', '"', '"'], ['y']] 7 true (some dq3)
      = [(7, "X", ['x', '"', '"', '"'])] := by
  have h := (claim_check_python_file_order_amended litSearch [("x", "X")]).2.2.2.2.2
    ['x', '"', '"', '"'] dq3 [['y']] 7 (by decide)
  rw [h]
  decide
